import Mathlib

/-!
Verification of the ReflexiveTrader analytics engine (src/utils.py and
src/analytics_engine.py) against its natural-language specification.

Numbers are embedded as rationals (the Python code computes with IEEE
floats; every claim under scrutiny is an exact arithmetic identity, so the
rational embedding is the standard shallow embedding).  A Python value that
may be `None` becomes an `Option`; Python truthiness of an optional float
(`None` and `0.0` are falsy) is the `truthy` predicate below; Python's
`x or 0` idiom on an optional number is `orZero`.
-/

/-- The direction string literal used by src/utils.py `calc_r_multiple`. -/
def sLONG : String := "LONG"

/-- The direction string named by the spec's SHORT branch. -/
def sSHORT : String := "SHORT"

/-- The status string literal used throughout src/analytics_engine.py. -/
def sCLOSED : String := "CLOSED"

/-- A trade record as produced by `fetch_all_trades` in src/notion_bridge.py
(lines 245-266): every numeric field except `position_pct` may be null;
`position_pct` is defaulted to a number by the bridge.  Only the fields the
analytics engine reads are modelled; free-text display fields that no
analytics computation inspects (thesis, psych notes, created timestamp) are
omitted. -/
structure Trade where
  ticker : String := ""
  direction : String := sLONG
  status : String := ""
  entry_price : Option ℚ := none
  profit_target : Option ℚ := none
  position_pct : ℚ := 0
  risk_reward : Option ℚ := none
  win_rate : Option ℚ := none
  entry_emotion : Option String := none
  familiarity : Option ℤ := none
  actual_exit : Option ℚ := none
  actual_return_pct : Option ℚ := none
  r_multiple : Option ℚ := none
  deviation_pct : Option ℚ := none
deriving DecidableEq

/-- Python `x or 0` on an optional number (null coalesces to 0; a stored 0
also maps to 0, which coincides). -/
def orZero (x : Option ℚ) : ℚ := x.getD 0

/-- Python truthiness of an optional float: `None` and `0.0` are falsy. -/
def truthy (x : Option ℚ) : Bool :=
  match x with
  | none => false
  | some v => decide (v ≠ 0)

-- ── src/utils.py ─────────────────────────────────────────────────

/-- src/utils.py lines 34-40: Kelly fraction, zero when risk_reward ≤ 0,
otherwise `(p*b - q)/b` floored at 0. -/
def kelly_criterion (win_rate risk_reward : ℚ) : ℚ :=
  if risk_reward ≤ 0 then 0
  else max 0 ((win_rate * risk_reward - (1 - win_rate)) / risk_reward)

/-- src/utils.py lines 43-54: R multiple.  The branch on the direction
string compares against "LONG" only; every other direction string takes the
SHORT branch. -/
def calc_r_multiple (entry exit_price stop : ℚ) (direction : String) : ℚ :=
  if direction == sLONG then
    if entry - stop ≤ 0 then 0 else (exit_price - entry) / (entry - stop)
  else
    if stop - entry ≤ 0 then 0 else (entry - exit_price) / (stop - entry)

-- ── Claims about src/utils.py ────────────────────────────────────

/-- Claim C3: calc_r_multiple with direction LONG returns
(exit − entry)/(entry − stop) when entry − stop > 0, with SHORT returns
(entry − exit)/(stop − entry) when stop − entry > 0, and returns exactly 0
when the direction's risk is ≤ 0, for both directions; LONG entry 100,
stop 90, exit 120 gives 2 and LONG entry 50, stop 60, exit 40 gives 0. -/
theorem C3_r_multiple_formula :
    (∀ entry exit_price stop : ℚ,
      (0 < entry - stop →
        calc_r_multiple entry exit_price stop sLONG =
          (exit_price - entry) / (entry - stop)) ∧
      (entry - stop ≤ 0 → calc_r_multiple entry exit_price stop sLONG = 0) ∧
      (0 < stop - entry →
        calc_r_multiple entry exit_price stop sSHORT =
          (entry - exit_price) / (stop - entry)) ∧
      (stop - entry ≤ 0 → calc_r_multiple entry exit_price stop sSHORT = 0)) ∧
    calc_r_multiple 100 120 90 sLONG = 2 ∧
    calc_r_multiple 50 40 60 sLONG = 0 := by
  refine ⟨fun entry exit_price stop => ⟨?_, ?_, ?_, ?_⟩, ?_, ?_⟩
  · intro h
    rw [calc_r_multiple, if_pos (show (sLONG == sLONG) = true from rfl), if_neg (not_le.mpr h)]
  · intro h
    rw [calc_r_multiple, if_pos (show (sLONG == sLONG) = true from rfl), if_pos h]
  · intro h
    rw [calc_r_multiple, if_neg (by decide), if_neg (not_le.mpr h)]
  · intro h
    rw [calc_r_multiple, if_neg (by decide), if_pos h]
  · rw [calc_r_multiple, if_pos (show (sLONG == sLONG) = true from rfl), if_neg (by norm_num)]
    norm_num
  · rw [calc_r_multiple, if_pos (show (sLONG == sLONG) = true from rfl), if_pos (by norm_num)]

/-- Witness for C3 at concrete inputs: each conditional discharged. -/
theorem C3_witness :
    (0 < (100 : ℚ) - 90 ∧ calc_r_multiple 100 120 90 sLONG = (120 - 100) / (100 - 90)) ∧
    ((50 : ℚ) - 60 ≤ 0 ∧ calc_r_multiple 50 40 60 sLONG = 0) ∧
    (0 < (60 : ℚ) - 50 ∧ calc_r_multiple 50 40 60 sSHORT = (50 - 40) / (60 - 50)) ∧
    ((100 : ℚ) - 90 ≤ 0 → True) ∧
    ((90 : ℚ) - 100 ≤ 0 ∧ calc_r_multiple 100 120 90 sSHORT = 0) := by
  refine ⟨⟨by norm_num, ?_⟩, ⟨by norm_num, ?_⟩, ⟨by norm_num, ?_⟩, fun _ => trivial,
    ⟨by norm_num, ?_⟩⟩
  · exact (C3_r_multiple_formula.1 100 120 90).1 (by norm_num)
  · exact (C3_r_multiple_formula.1 50 40 60).2.1 (by norm_num)
  · exact (C3_r_multiple_formula.1 50 40 60).2.2.1 (by norm_num)
  · exact (C3_r_multiple_formula.1 100 120 90).2.2.2 (by norm_num)

/-- Claim C8: kelly_criterion equals the clamped Kelly formula for positive
risk_reward, is exactly 0 for risk_reward ≤ 0, and gives 0.4 at
win_rate 0.6, risk_reward 2. -/
theorem C8_kelly_formula :
    (∀ win_rate risk_reward : ℚ,
      (0 < risk_reward →
        kelly_criterion win_rate risk_reward =
          max 0 ((win_rate * risk_reward - (1 - win_rate)) / risk_reward)) ∧
      (risk_reward ≤ 0 → kelly_criterion win_rate risk_reward = 0)) ∧
    kelly_criterion (6/10) 2 = 4/10 := by
  refine ⟨fun win_rate risk_reward => ⟨fun h => ?_, fun h => ?_⟩, ?_⟩
  · rw [kelly_criterion, if_neg (not_le.mpr h)]
  · rw [kelly_criterion, if_pos h]
  · have hv : ((6 : ℚ)/10 * 2 - (1 - 6/10)) / 2 = 4/10 := by norm_num
    rw [kelly_criterion, if_neg (by norm_num), hv, max_eq_right (by norm_num)]

/-- Witness for C8: both conditionals discharged at concrete inputs. -/
theorem C8_witness :
    (0 < (2 : ℚ) ∧ kelly_criterion (6/10) 2 = max 0 (((6/10) * 2 - (1 - 6/10)) / 2)) ∧
    ((-1 : ℚ) ≤ 0 ∧ kelly_criterion (6/10) (-1) = 0) := by
  refine ⟨⟨by norm_num, (C8_kelly_formula.1 (6/10) 2).1 (by norm_num)⟩,
    ⟨by norm_num, (C8_kelly_formula.1 (6/10) (-1)).2 (by norm_num)⟩⟩

/-- The remaining direction strings of the direction enum (src/models.py
line 12). -/
def sREDUCE_LONG : String := "REDUCE_LONG"

/-- The other reduce direction of the enum. -/
def sREDUCE_SHORT : String := "REDUCE_SHORT"

/-- Claim C9: calc_r_multiple is scale-invariant — scaling entry, exit and
stop by the same positive constant leaves the result unchanged, for every
direction string. -/
theorem C9_scale_invariance :
    ∀ (c entry exit_price stop : ℚ) (direction : String), 0 < c →
      calc_r_multiple (c * entry) (c * exit_price) (c * stop) direction =
        calc_r_multiple entry exit_price stop direction := by
  intro c entry exit_price stop direction hc
  have hc0 : c ≠ 0 := ne_of_gt hc
  have key : ∀ a b u v : ℚ,
      (if c * a - c * b ≤ 0 then (0 : ℚ) else (c * u - c * v) / (c * a - c * b)) =
      (if a - b ≤ 0 then 0 else (u - v) / (a - b)) := by
    intro a b u v
    have h1 : c * a - c * b = c * (a - b) := by ring
    have h2 : c * u - c * v = c * (u - v) := by ring
    rw [h1, h2]
    by_cases hab : a - b ≤ 0
    · rw [if_pos hab, if_pos]
      calc c * (a - b) ≤ c * 0 := mul_le_mul_of_nonneg_left hab (le_of_lt hc)
        _ = 0 := by ring
    · rw [if_neg hab, if_neg, mul_div_mul_left _ _ hc0]
      intro hle
      exact hab (nonpos_of_mul_nonpos_right hle hc)
  unfold calc_r_multiple
  by_cases hd : (direction == sLONG) = true
  · rw [if_pos hd, if_pos hd]
    exact key entry stop exit_price entry
  · rw [if_neg hd, if_neg hd]
    exact key stop entry entry exit_price

/-- Witness for C9: the scale hypothesis discharged at c = 2. -/
theorem C9_witness :
    0 < (2 : ℚ) ∧
    calc_r_multiple (2 * 100) (2 * 120) (2 * 90) sLONG =
      calc_r_multiple 100 120 90 sLONG := by
  exact ⟨by norm_num, C9_scale_invariance 2 100 120 90 sLONG (by norm_num)⟩

/-- Claim C10: for every direction string other than "LONG" — including
"REDUCE_LONG" and "REDUCE_SHORT" — calc_r_multiple applies the SHORT
formula: (entry − exit)/(stop − entry) when stop − entry > 0 and 0
otherwise. -/
theorem C10_non_long_direction :
    ∀ (entry exit_price stop : ℚ) (direction : String), direction ≠ sLONG →
      calc_r_multiple entry exit_price stop direction =
        calc_r_multiple entry exit_price stop sSHORT ∧
      (0 < stop - entry →
        calc_r_multiple entry exit_price stop direction =
          (entry - exit_price) / (stop - entry)) ∧
      (stop - entry ≤ 0 → calc_r_multiple entry exit_price stop direction = 0) := by
  intro entry exit_price stop direction hd
  have hb : ¬((direction == sLONG) = true) := by
    simp only [beq_iff_eq]
    exact hd
  refine ⟨?_, fun h => ?_, fun h => ?_⟩
  · unfold calc_r_multiple
    rw [if_neg hb, if_neg (show ¬((sSHORT == sLONG) = true) from by decide)]
  · unfold calc_r_multiple
    rw [if_neg hb, if_neg (not_le.mpr h)]
  · unfold calc_r_multiple
    rw [if_neg hb, if_pos h]

/-- Witness for C10: both reduce directions, both sides of the risk sign. -/
theorem C10_witness :
    sREDUCE_LONG ≠ sLONG ∧ sREDUCE_SHORT ≠ sLONG ∧
    calc_r_multiple 100 80 110 sREDUCE_LONG = calc_r_multiple 100 80 110 sSHORT ∧
    (0 < (110 : ℚ) - 100 ∧
      calc_r_multiple 100 80 110 sREDUCE_LONG = (100 - 80) / (110 - 100)) ∧
    ((90 : ℚ) - 100 ≤ 0 ∧ calc_r_multiple 100 80 90 sREDUCE_SHORT = 0) := by
  refine ⟨by decide, by decide, ?_, ⟨by norm_num, ?_⟩, ⟨by norm_num, ?_⟩⟩
  · exact (C10_non_long_direction 100 80 110 sREDUCE_LONG (by decide)).1
  · exact (C10_non_long_direction 100 80 110 sREDUCE_LONG (by decide)).2.1 (by norm_num)
  · exact (C10_non_long_direction 100 80 90 sREDUCE_SHORT (by decide)).2.2 (by norm_num)

-- ── src/analytics_engine.py: statistics ─────────────────────────

/-- Running cumulative sum continuing from an accumulator (pandas
`Series.cumsum` is `cumsumFrom 0`). -/
def cumsumFrom (acc : ℚ) : List ℚ → List ℚ
  | [] => []
  | x :: xs => (acc + x) :: cumsumFrom (acc + x) xs

/-- pandas `Series.cumsum` over the embedded list. -/
def cumsum (l : List ℚ) : List ℚ := cumsumFrom 0 l

/-- Running maximum continuing from a seed already seen. -/
def cummaxFrom (m : ℚ) : List ℚ → List ℚ
  | [] => []
  | x :: xs => max m x :: cummaxFrom (max m x) xs

/-- pandas `Series.cummax` over the embedded list. -/
def cummax : List ℚ → List ℚ
  | [] => []
  | x :: xs => x :: cummaxFrom x xs

/-- Minimum of a list, as Python `min` / pandas `Series.min` on the
non-empty lists the code applies it to (0 on the never-used empty list). -/
def listMin : List ℚ → ℚ
  | [] => 0
  | x :: xs => xs.foldl min x

/-- Maximum of a non-empty list, as Python `max`. -/
def listMax : List ℚ → ℚ
  | [] => 0
  | x :: xs => xs.foldl max x

/-- The `closed` filter of calc_statistics (src/analytics_engine.py line
24): status CLOSED and non-null actual_exit. -/
def statsSample (trades : List Trade) : List Trade :=
  trades.filter (fun t => t.status == sCLOSED && t.actual_exit.isSome)

/-- Result record of calc_statistics.  The Python empty-sample branch
returns a dict without `wins`/`losses` keys; those fields are 0 here. -/
structure Statistics where
  total : ℕ
  closed : ℕ
  wins : ℕ
  losses : ℕ
  win_rate : ℚ
  avg_r : ℚ
  best_r : ℚ
  worst_r : ℚ
  total_r : ℚ
  max_drawdown : ℚ
  r_values : List ℚ
deriving DecidableEq

/-- src/analytics_engine.py lines 22-50: core statistics.  Note the closed
filter tests `actual_exit`, not `r_multiple`, and `t["r_multiple"] or 0`
maps a null r_multiple inside the sample to 0. -/
def calc_statistics (trades : List Trade) : Statistics :=
  let closed := statsSample trades
  if closed = [] then
    { total := trades.length, closed := 0, wins := 0, losses := 0,
      win_rate := 0, avg_r := 0, best_r := 0, worst_r := 0, total_r := 0,
      max_drawdown := 0, r_values := [] }
  else
    let wins := closed.filter (fun t => decide (0 < orZero t.r_multiple))
    let r_values := closed.map (fun t => orZero t.r_multiple)
    let cumulative := cumsum r_values
    let peak := cummax cumulative
    let drawdown := List.zipWith (fun a b => a - b) cumulative peak
    let max_dd := listMin drawdown
    { total := trades.length, closed := closed.length, wins := wins.length,
      losses := closed.length - wins.length,
      win_rate := (wins.length : ℚ) / (closed.length : ℚ),
      avg_r := r_values.sum / (r_values.length : ℚ),
      best_r := listMax r_values, worst_r := listMin r_values,
      total_r := r_values.sum, max_drawdown := max_dd, r_values := r_values }

-- ── src/analytics_engine.py: highlights and other samples ───────

/-- The closed filter shared by find_highlights (line 57), deep_analysis
(line 138) and calc_position_analysis (line 184): status CLOSED and
non-null r_multiple — actual_exit is not consulted. -/
def closedWithR (trades : List Trade) : List Trade :=
  trades.filter (fun t => t.status == sCLOSED && t.r_multiple.isSome)

/-- The losers filter of find_error_fingerprints (line 68): status CLOSED
and `(r_multiple or 0) < 0` — neither actual_exit nor the nullity of
r_multiple is consulted (a null r_multiple simply counts as 0, not a
loss). -/
def losersSample (trades : List Trade) : List Trade :=
  trades.filter (fun t => t.status == sCLOSED && decide (orZero t.r_multiple < 0))

/-- The calm emotion set of find_highlights (line 58). -/
def calm_emotions : List String := ["calm", "confident", "exploratory"]

/-- Stable descending insertion by r_multiple: the element is placed before
the first element whose key is ≤ its own, which is exactly the order
produced by Python's stable `list.sort(key=r_multiple, reverse=True)`. -/
def insertByRDesc (t : Trade) : List Trade → List Trade
  | [] => [t]
  | x :: xs =>
    if orZero x.r_multiple ≤ orZero t.r_multiple then t :: x :: xs
    else x :: insertByRDesc t xs

/-- Python's stable sort, descending by r_multiple. -/
def sortByRDesc : List Trade → List Trade
  | [] => []
  | x :: xs => insertByRDesc x (sortByRDesc xs)

/-- src/analytics_engine.py lines 55-61: top-5 profitable trades entered in
a calm emotional state, drawn from closedWithR — a record with status
CLOSED and null actual_exit is not excluded. -/
def find_highlights (trades : List Trade) : List Trade :=
  let closed := closedWithR trades
  let highlights := closed.filter (fun t =>
    (match t.entry_emotion with
     | some e => calm_emotions.contains e
     | none => false) && decide (0 < orZero t.r_multiple))
  (sortByRDesc highlights).take 5

-- ── List lemmas for the drawdown computation ─────────────────────

/-- Every entry of `cummaxFrom m l` dominates the matching entry of `l`. -/
theorem cummaxFrom_ge : ∀ (l : List ℚ) (m : ℚ),
    List.Forall₂ (fun a b => b ≤ a) (cummaxFrom m l) l
  | [], _ => List.Forall₂.nil
  | x :: xs, m => List.Forall₂.cons (le_max_right m x) (cummaxFrom_ge xs (max m x))

/-- The running maximum dominates the sequence pointwise. -/
theorem cummax_ge (c : List ℚ) : List.Forall₂ (fun a b => b ≤ a) (cummax c) c := by
  cases c with
  | nil => exact List.Forall₂.nil
  | cons x xs => exact List.Forall₂.cons (le_refl x) (cummaxFrom_ge xs x)

/-- Entries of `cumulative − peak` are nonpositive when the peak
dominates. -/
theorem zipWith_sub_nonpos (c p : List ℚ)
    (h : List.Forall₂ (fun a b => b ≤ a) p c) :
    ∀ x ∈ List.zipWith (fun a b => a - b) c p, x ≤ 0 := by
  induction h with
  | nil =>
    intro x hx
    simp at hx
  | cons h1 _ ih =>
    intro x hx
    simp only [List.zipWith_cons_cons, List.mem_cons] at hx
    rcases hx with h | h
    · rw [h]
      exact sub_nonpos.mpr h1
    · exact ih x h

/-- Folding `min` never rises above the initial accumulator. -/
theorem foldl_min_le_init : ∀ (xs : List ℚ) (x : ℚ), xs.foldl min x ≤ x := by
  intro xs
  induction xs with
  | nil => intro x; exact le_refl x
  | cons y ys ih => intro x; exact le_trans (ih (min x y)) (min_le_left x y)

/-- The minimum of a non-empty list of nonpositive values is nonpositive. -/
theorem listMin_nonpos (l : List ℚ) (hne : l ≠ []) (h : ∀ x ∈ l, x ≤ 0) :
    listMin l ≤ 0 := by
  cases l with
  | nil => exact absurd rfl hne
  | cons x xs => exact le_trans (foldl_min_le_init xs x) (h x (by simp))

/-- On a non-decreasing tail the running maximum is the identity. -/
theorem cummaxFrom_of_chain : ∀ (l : List ℚ) (m : ℚ),
    List.Chain' (fun a b => a ≤ b) (m :: l) → cummaxFrom m l = l := by
  intro l
  induction l with
  | nil => intro m _; rfl
  | cons x xs ih =>
    intro m hchain
    rcases List.chain'_cons.mp hchain with ⟨hmx, htail⟩
    simp only [cummaxFrom, max_eq_right hmx]
    rw [ih x htail]

/-- On a non-decreasing list the running maximum is the identity. -/
theorem cummax_of_chain (l : List ℚ) (h : List.Chain' (fun a b => a ≤ b) l) :
    cummax l = l := by
  cases l with
  | nil => rfl
  | cons x xs =>
    simp only [cummax]
    rw [cummaxFrom_of_chain xs x h]

/-- `l − l` pointwise is all zeros. -/
theorem mem_zipWith_sub_self : ∀ (l : List ℚ) (y : ℚ),
    y ∈ List.zipWith (fun a b => a - b) l l → y = 0 := by
  intro l
  induction l with
  | nil =>
    intro y hy
    simp at hy
  | cons x xs ih =>
    intro y hy
    simp only [List.zipWith_cons_cons, List.mem_cons] at hy
    rcases hy with h | h
    · rw [h]
      ring
    · exact ih y h

/-- Folding `min` from 0 over zeros stays 0. -/
theorem foldl_min_zeros : ∀ (xs : List ℚ), (∀ y ∈ xs, y = 0) →
    xs.foldl min (0 : ℚ) = 0 := by
  intro xs
  induction xs with
  | nil => intro _; rfl
  | cons y ys ih =>
    intro h
    have hy : y = 0 := h y (by simp)
    simp only [List.foldl, hy, min_self]
    exact ih (fun z hz => h z (by simp [hz]))

/-- The minimum of the self-difference of a non-empty list is 0. -/
theorem listMin_zipWith_sub_self (l : List ℚ) (hne : l ≠ []) :
    listMin (List.zipWith (fun a b => a - b) l l) = 0 := by
  cases l with
  | nil => exact absurd rfl hne
  | cons x xs =>
    simp only [List.zipWith_cons_cons, listMin, sub_self]
    exact foldl_min_zeros _ (fun z hz => mem_zipWith_sub_self xs z hz)

/-- Projections of calc_statistics on a non-empty closed sample. -/
theorem calc_statistics_fields (trades : List Trade)
    (h : statsSample trades ≠ []) :
    (calc_statistics trades).r_values =
      (statsSample trades).map (fun t => orZero t.r_multiple) ∧
    (calc_statistics trades).wins =
      ((statsSample trades).filter
        (fun t => decide (0 < orZero t.r_multiple))).length ∧
    (calc_statistics trades).max_drawdown =
      listMin (List.zipWith (fun a b => a - b)
        (cumsum ((statsSample trades).map (fun t => orZero t.r_multiple)))
        (cummax (cumsum
          ((statsSample trades).map (fun t => orZero t.r_multiple))))) := by
  unfold calc_statistics
  rw [if_neg h]
  exact ⟨rfl, rfl, rfl⟩

/-- Projections of calc_statistics on an empty closed sample. -/
theorem calc_statistics_empty (trades : List Trade)
    (h : statsSample trades = []) :
    (calc_statistics trades).r_values = [] ∧
    (calc_statistics trades).wins = 0 := by
  unfold calc_statistics
  rw [if_pos h]
  exact ⟨rfl, rfl⟩

-- ── Claim C1 ─────────────────────────────────────────────────────

/-- A record that is CLOSED with a non-null actual_exit but a null
r_multiple. -/
def tNullR : Trade := { status := sCLOSED, actual_exit := some 100 }

/-- A record that is CLOSED with a non-null r_multiple but a null
actual_exit. -/
def tNoExit : Trade := { status := sCLOSED, r_multiple := some 5 }

/-- Counterexample to claim C1 as stated: calc_statistics does not filter
on r_multiple.  A CLOSED trade with non-null actual_exit and null
r_multiple stays in the sample and its r-multiple is counted as 0 (the
claim says it is excluded); a CLOSED trade with non-null r_multiple but
null actual_exit is excluded (the claim says it contributes). -/
theorem C1_counterexample :
    tNullR.status = sCLOSED ∧ tNullR.actual_exit ≠ none ∧
    tNullR.r_multiple = none ∧
    (calc_statistics [tNullR]).closed = 1 ∧
    (calc_statistics [tNullR]).r_values = [0] ∧
    tNoExit.status = sCLOSED ∧ tNoExit.r_multiple = some 5 ∧
    (calc_statistics [tNoExit]).closed = 0 ∧
    (calc_statistics [tNoExit]).r_values = [] := by
  refine ⟨rfl, by simp [tNullR], rfl, ?_, ?_, rfl, rfl, ?_, ?_⟩ <;>
    simp [calc_statistics, statsSample, tNullR, tNoExit, orZero,
      List.filter]

/-- Claim C1 as amended: the sample of calc_statistics is exactly the
trades with status CLOSED and non-null actual_exit (r_multiple is not
consulted by the filter); inside the sample a null r_multiple is counted
as an r-multiple of 0 in the r-value sequence, and the win count is the
number of sample trades whose (null-as-0) r-multiple is positive. -/
theorem C1_statistics_sample :
    ∀ trades : List Trade,
      (∀ t ∈ trades,
        t ∈ statsSample trades ↔ t.status = sCLOSED ∧ t.actual_exit ≠ none) ∧
      (calc_statistics trades).r_values =
        (statsSample trades).map (fun t => orZero t.r_multiple) ∧
      (calc_statistics trades).wins =
        ((statsSample trades).filter
          (fun t => decide (0 < orZero t.r_multiple))).length := by
  intro trades
  refine ⟨fun t ht => ?_, ?_, ?_⟩
  · simp [statsSample, List.mem_filter, ht, Option.isSome_iff_ne_none]
  · by_cases h : statsSample trades = []
    · rw [(calc_statistics_empty trades h).1, h]
      rfl
    · exact (calc_statistics_fields trades h).1
  · by_cases h : statsSample trades = []
    · rw [(calc_statistics_empty trades h).2, h]
      rfl
    · exact (calc_statistics_fields trades h).2.1

/-- Witness for the amended C1 at a concrete list, membership hypothesis
discharged. -/
theorem C1_witness :
    (tNullR ∈ statsSample [tNullR] ↔
      tNullR.status = sCLOSED ∧ tNullR.actual_exit ≠ none) ∧
    (calc_statistics [tNullR]).r_values =
      (statsSample [tNullR]).map (fun t => orZero t.r_multiple) := by
  exact ⟨(C1_statistics_sample [tNullR]).1 tNullR (by simp),
    (C1_statistics_sample [tNullR]).2.1⟩

-- ── Claim C2 ─────────────────────────────────────────────────────

/-- A closed losing trade with r-multiple −2. -/
def tLossA : Trade := { status := sCLOSED, actual_exit := some 90,
                        r_multiple := some (-2) }

/-- A closed losing trade with r-multiple −1. -/
def tLossB : Trade := { status := sCLOSED, actual_exit := some 95,
                        r_multiple := some (-1) }

/-- Counterexample to claim C2 as stated: the r-value sequence [−2, −1] is
non-decreasing, yet max_drawdown is −1, not 0.  (The cumulative sums are
[−2, −3], which do decrease.) -/
theorem C2_counterexample :
    (calc_statistics [tLossA, tLossB]).r_values = [-2, -1] ∧
    List.Chain' (fun a b => a ≤ b) [(-2 : ℚ), -1] ∧
    (calc_statistics [tLossA, tLossB]).max_drawdown = -1 ∧
    ((-1 : ℚ) ≠ 0) := by
  refine ⟨?_, ?_, ?_, by norm_num⟩
  · simp [calc_statistics, statsSample, tLossA, tLossB, orZero, List.filter]
  · simp only [List.chain'_cons, List.chain'_singleton, and_true]
    norm_num
  · have hs : statsSample [tLossA, tLossB] ≠ [] := by
      simp [statsSample, tLossA, tLossB, List.filter]
    rw [(calc_statistics_fields _ hs).2.2]
    norm_num [statsSample, tLossA, tLossB, orZero, List.filter, cumsum,
      cumsumFrom, cummax, cummaxFrom, listMin, min_def]

/-- Claim C2 as amended: for every trade list whose closed sample is
non-empty, max_drawdown equals the minimum over the running cumulative sum
of the sample's r-multiples of (cumulative − running maximum of the
cumulative); it is always ≤ 0, and it equals 0 whenever the cumulative sum
sequence (not the r-multiple sequence) is non-decreasing. -/
theorem C2_max_drawdown :
    ∀ trades : List Trade, statsSample trades ≠ [] →
      (calc_statistics trades).max_drawdown =
        listMin (List.zipWith (fun a b => a - b)
          (cumsum (calc_statistics trades).r_values)
          (cummax (cumsum (calc_statistics trades).r_values))) ∧
      (calc_statistics trades).max_drawdown ≤ 0 ∧
      (List.Chain' (fun a b => a ≤ b)
          (cumsum (calc_statistics trades).r_values) →
        (calc_statistics trades).max_drawdown = 0) := by
  intro trades h
  obtain ⟨hrv, _, hdd⟩ := calc_statistics_fields trades h
  have hrvne : (calc_statistics trades).r_values ≠ [] := by
    rw [hrv]
    simp only [ne_eq, List.map_eq_nil_iff]
    exact h
  have hcne : cumsum (calc_statistics trades).r_values ≠ [] := by
    rcases hx : (calc_statistics trades).r_values with _ | ⟨x, xs⟩
    · exact absurd hx hrvne
    · simp [cumsum, cumsumFrom]
  have hform : (calc_statistics trades).max_drawdown =
      listMin (List.zipWith (fun a b => a - b)
        (cumsum (calc_statistics trades).r_values)
        (cummax (cumsum (calc_statistics trades).r_values))) := by
    rw [hrv]
    exact hdd
  refine ⟨hform, ?_, ?_⟩
  · rw [hform]
    apply listMin_nonpos
    · rcases hx : cumsum (calc_statistics trades).r_values with _ | ⟨c, cs⟩
      · exact absurd hx hcne
      · simp [cummax, List.zipWith]
    · exact zipWith_sub_nonpos _ _ (cummax_ge _)
  · intro hchain
    rw [hform, cummax_of_chain _ hchain]
    exact listMin_zipWith_sub_self _ hcne

/-- Witness for the amended C2: a concrete two-trade list with winning then
losing trade; the cumulative sums [1, 1/2] are not used — instead take
rising r-values so the cumulative chain hypothesis holds. -/
theorem C2_witness :
    statsSample [tNullR] ≠ [] ∧
    (calc_statistics [tNullR]).max_drawdown ≤ 0 ∧
    List.Chain' (fun a b => a ≤ b) (cumsum (calc_statistics [tNullR]).r_values) ∧
    (calc_statistics [tNullR]).max_drawdown = 0 := by
  have hs : statsSample [tNullR] ≠ [] := by
    simp [statsSample, tNullR, List.filter]
  have hch : List.Chain' (fun a b => a ≤ b)
      (cumsum (calc_statistics [tNullR]).r_values) := by
    have : (calc_statistics [tNullR]).r_values = [0] := by
      simp [calc_statistics, statsSample, tNullR, orZero, List.filter]
    rw [this]
    simp [cumsum, cumsumFrom]
  exact ⟨hs, (C2_max_drawdown [tNullR] hs).2.1, hch,
    (C2_max_drawdown [tNullR] hs).2.2 hch⟩

-- ── Claim C6 ─────────────────────────────────────────────────────

/-- The calm emotion literal. -/
def sCalm : String := "calm"

/-- A CLOSED record with a null actual_exit but a positive r_multiple and
a calm emotion: find_highlights admits it. -/
def tHighlight : Trade :=
  { status := sCLOSED, r_multiple := some 2, entry_emotion := some sCalm }

/-- A CLOSED record with a null actual_exit and a negative r_multiple: the
error-fingerprint losers sample admits it. -/
def tLossNoExit : Trade := { status := sCLOSED, r_multiple := some (-1) }

/-- Counterexample to claim C6 as stated: the components do not share one
closed rule.  A record with status CLOSED and null actual_exit is admitted
by find_highlights (and by the losers sample of find_error_fingerprints),
because those filters test r_multiple, never actual_exit. -/
theorem C6_counterexample :
    tHighlight.status = sCLOSED ∧ tHighlight.actual_exit = none ∧
    find_highlights [tHighlight] = [tHighlight] ∧
    tLossNoExit.status = sCLOSED ∧ tLossNoExit.actual_exit = none ∧
    losersSample [tLossNoExit] = [tLossNoExit] := by
  refine ⟨rfl, rfl, ?_, rfl, rfl, ?_⟩
  · simp [find_highlights, closedWithR, calm_emotions, sortByRDesc,
      insertByRDesc, orZero, List.filter, tHighlight, sCalm]
  · simp [losersSample, List.filter, tLossNoExit, orZero]

/-- Claim C6 as amended: each component's closed sample has its own rule —
calc_statistics requires status CLOSED and non-null actual_exit;
find_highlights, deep_analysis and the per-ticker closed performance of
calc_position_analysis (the shared closedWithR filter) require status
CLOSED and non-null r_multiple; the find_error_fingerprints losers sample
requires status CLOSED and (r_multiple or 0) < 0.  Only calc_statistics
consults actual_exit. -/
theorem C6_sample_rules :
    ∀ (trades : List Trade) (t : Trade), t ∈ trades →
      (t ∈ statsSample trades ↔ t.status = sCLOSED ∧ t.actual_exit ≠ none) ∧
      (t ∈ closedWithR trades ↔ t.status = sCLOSED ∧ t.r_multiple ≠ none) ∧
      (t ∈ losersSample trades ↔
        t.status = sCLOSED ∧ orZero t.r_multiple < 0) := by
  intro trades t ht
  refine ⟨?_, ?_, ?_⟩ <;>
    simp [statsSample, closedWithR, losersSample, List.mem_filter, ht,
      Option.isSome_iff_ne_none]

/-- Witness for the amended C6, membership hypothesis discharged. -/
theorem C6_witness :
    (tHighlight ∈ statsSample [tHighlight] ↔
      tHighlight.status = sCLOSED ∧ tHighlight.actual_exit ≠ none) ∧
    (tHighlight ∈ closedWithR [tHighlight] ↔
      tHighlight.status = sCLOSED ∧ tHighlight.r_multiple ≠ none) := by
  exact ⟨(C6_sample_rules [tHighlight] tHighlight (by simp)).1,
    (C6_sample_rules [tHighlight] tHighlight (by simp)).2.1⟩

-- ── src/analytics_engine.py: discipline score ────────────────────

/-- The qualification filter of calc_discipline_score (lines 118-119):
status CLOSED and entry_price, actual_exit, profit_target all TRUTHY in
the Python sense — non-null AND nonzero. -/
def disciplineSample (trades : List Trade) : List Trade :=
  trades.filter (fun t => t.status == sCLOSED && truthy t.entry_price &&
    truthy t.actual_exit && truthy t.profit_target)

/-- Result record of calc_discipline_score; a detail is (ticker,
absolute deviation). -/
structure DisciplineScore where
  score : ℚ
  avg_deviation : ℚ
  details : List (String × ℚ)
deriving DecidableEq

/-- src/analytics_engine.py lines 116-131: deviation between plan and
execution.  `abs(t["deviation_pct"] or 0)` maps a null deviation to 0. -/
def calc_discipline_score (trades : List Trade) : DisciplineScore :=
  let closed := disciplineSample trades
  if closed = [] then { score := 100, avg_deviation := 0, details := [] }
  else
    let deviations := closed.map (fun t => (t.ticker, |orZero t.deviation_pct|))
    let avg_dev := (deviations.map Prod.snd).sum / (deviations.length : ℚ)
    { score := max 0 (100 - avg_dev * 100), avg_deviation := avg_dev,
      details := deviations }

/-- The qualification rule exactly as claim C7 words it ("entry_price,
actual_exit and profit_target all present", i.e. non-null), for the
refutation comparison. -/
def disciplineSampleClaim (trades : List Trade) : List Trade :=
  trades.filter (fun t => t.status == sCLOSED && t.entry_price.isSome &&
    t.actual_exit.isSome && t.profit_target.isSome)

/-- The score claim C7 predicts, computed over its notion of qualifying
trades. -/
def disciplineScoreClaim (trades : List Trade) : ℚ :=
  let q := disciplineSampleClaim trades
  if q = [] then 100
  else max 0 (100 - ((q.map (fun t => |orZero t.deviation_pct|)).sum /
    (q.length : ℚ)) * 100)

-- ── Claim C7 ─────────────────────────────────────────────────────

/-- Python truthiness of an optional number, as a proposition. -/
theorem truthy_iff (x : Option ℚ) :
    truthy x = true ↔ ∃ v, x = some v ∧ v ≠ 0 := by
  cases x <;> simp [truthy]

/-- A CLOSED record whose plan triple is fully present but whose
profit_target is the (falsy) number 0. -/
def tZeroTarget : Trade :=
  { status := sCLOSED, entry_price := some 100, actual_exit := some 90,
    profit_target := some 0, deviation_pct := some (1/10) }

/-- Counterexample to claim C7 as stated: a trade with entry_price,
actual_exit and profit_target all present (profit_target = 0) qualifies
under the claim's rule, which predicts score 90; the code's truthiness
filter drops it and returns the degenerate 100. -/
theorem C7_counterexample :
    tZeroTarget.status = sCLOSED ∧ tZeroTarget.entry_price ≠ none ∧
    tZeroTarget.actual_exit ≠ none ∧ tZeroTarget.profit_target ≠ none ∧
    disciplineScoreClaim [tZeroTarget] = 90 ∧
    (calc_discipline_score [tZeroTarget]).score = 100 ∧
    (90 : ℚ) ≠ 100 := by
  refine ⟨rfl, by simp [tZeroTarget], by simp [tZeroTarget],
    by simp [tZeroTarget], ?_, ?_, by norm_num⟩
  · have h1 : disciplineSampleClaim [tZeroTarget] = [tZeroTarget] := by
      simp [disciplineSampleClaim, tZeroTarget, List.filter]
    rw [disciplineScoreClaim, h1]
    have habs : |(1 : ℚ)/10| = 1/10 := abs_of_nonneg (by norm_num)
    norm_num [tZeroTarget, orZero, habs, max_def]
  · have h0 : disciplineSample [tZeroTarget] = [] := by
      simp [disciplineSample, tZeroTarget, truthy, List.filter]
    rw [calc_discipline_score, if_pos h0]

/-- Claim C7 as amended: a trade qualifies iff its status is CLOSED and
entry_price, actual_exit and profit_target are all non-null AND nonzero
(Python truthiness); with no qualifying trade the score is exactly 100,
otherwise it is max(0, 100 − avg·100) where avg is the mean of
|deviation_pct| (null as 0) over the qualifying trades. -/
theorem C7_discipline_score :
    ∀ trades : List Trade,
      (∀ t ∈ trades, t ∈ disciplineSample trades ↔
        t.status = sCLOSED ∧
        (∃ v, t.entry_price = some v ∧ v ≠ 0) ∧
        (∃ v, t.actual_exit = some v ∧ v ≠ 0) ∧
        (∃ v, t.profit_target = some v ∧ v ≠ 0)) ∧
      (disciplineSample trades = [] →
        (calc_discipline_score trades).score = 100) ∧
      (disciplineSample trades ≠ [] →
        (calc_discipline_score trades).score =
          max 0 (100 - ((disciplineSample trades).map
              (fun t => |orZero t.deviation_pct|)).sum /
            ((disciplineSample trades).length : ℚ) * 100)) := by
  intro trades
  refine ⟨fun t ht => ?_, fun h => ?_, fun h => ?_⟩
  · simp only [disciplineSample, List.mem_filter, ht, true_and,
      Bool.and_eq_true, beq_iff_eq, truthy_iff]
    tauto
  · rw [calc_discipline_score, if_pos h]
  · rw [calc_discipline_score, if_neg h]
    simp only [List.map_map, List.length_map]
    rfl

/-- A fully qualifying CLOSED record with a 10% recorded deviation. -/
def tDev : Trade :=
  { status := sCLOSED, entry_price := some 100, actual_exit := some 90,
    profit_target := some 100, deviation_pct := some (1/10) }

/-- Witness for the amended C7: a qualifying trade with 10% deviation,
and the empty list yielding 100. -/
theorem C7_witness :
    ((calc_discipline_score ([] : List Trade)).score = 100) ∧
    disciplineSample [tDev] ≠ [] ∧
    (calc_discipline_score [tDev]).score =
      max 0 (100 - ((disciplineSample [tDev]).map
          (fun t => |orZero t.deviation_pct|)).sum /
        ((disciplineSample [tDev]).length : ℚ) * 100) ∧
    (tDev ∈ disciplineSample [tDev] ↔
      tDev.status = sCLOSED ∧
      (∃ v, tDev.entry_price = some v ∧ v ≠ 0) ∧
      (∃ v, tDev.actual_exit = some v ∧ v ≠ 0) ∧
      (∃ v, tDev.profit_target = some v ∧ v ≠ 0)) := by
  have hne : disciplineSample [tDev] ≠ [] := by
    simp [disciplineSample, tDev, truthy, List.filter]
  exact ⟨(C7_discipline_score []).2.1 rfl, hne,
    (C7_discipline_score [tDev]).2.2 hne,
    (C7_discipline_score [tDev]).1 tDev (by simp)⟩

-- ── src/analytics_engine.py: risk profile ────────────────────────

/-- A scored risk factor (lines 236-302).  The display strings `value` and
`detail` are presentation only and are omitted. -/
structure Factor where
  name : String
  score : ℚ
  weight : ℚ
deriving DecidableEq

/-- Result record of calc_risk_profile. -/
structure RiskProfile where
  score : ℚ
  label : String
  factors : List Factor
deriving DecidableEq

/-- Factor 1 (lines 231-242): average position size, weight 0.30; score
clamp((avg_pos − 1)/14 × 100, 0, 100). -/
def posFactor (trades : List Trade) : Factor :=
  { name := "平均仓位",
    score := min 100 (max 0
      (((trades.map Trade.position_pct).sum / (trades.length : ℚ) - 1)
        / 14 * 100)),
    weight := 3/10 }

/-- The truthy risk_reward values (line 245): non-null and nonzero. -/
def rrValues (trades : List Trade) : List ℚ :=
  trades.filterMap (fun t => match t.risk_reward with
    | none => none
    | some v => if v = 0 then none else some v)

/-- Factor 2 (lines 245-256): planned reward:risk, weight 0.25, present
only when some trade has a truthy risk_reward. -/
def rrFactor (trades : List Trade) : Option Factor :=
  let vals := rrValues trades
  if vals = [] then none
  else
    some { name := "平均盈亏比",
           score := min 100 (max 0
             (100 - (vals.sum / (vals.length : ℚ) - 1/2) / 4 * 100)),
           weight := 1/4 }

/-- The truthy win_rate values (line 259). -/
def wrValues (trades : List Trade) : List ℚ :=
  trades.filterMap (fun t => match t.win_rate with
    | none => none
    | some v => if v = 0 then none else some v)

/-- Factor 3 (lines 259-270): expected win rate, weight 0.20. -/
def wrFactor (trades : List Trade) : Option Factor :=
  let vals := wrValues trades
  if vals = [] then none
  else
    some { name := "平均预期胜率",
           score := min 100 (max 0
             (100 - (vals.sum / (vals.length : ℚ) - 1/5) / (3/5) * 100)),
           weight := 1/5 }

/-- Per-trade Kelly utilization ratio (lines 274-281): requires truthy and
positive win_rate and risk_reward (positivity subsumes nonzero) and a
positive Kelly fraction. -/
def kellyRatio (t : Trade) : Option ℚ :=
  match t.win_rate with
  | none => none
  | some wr =>
    match t.risk_reward with
    | none => none
    | some rr =>
      if 0 < wr ∧ 0 < rr then
        if 0 < (wr * rr - (1 - wr)) / rr then
          some (t.position_pct / 100 / ((wr * rr - (1 - wr)) / rr))
        else none
      else none

/-- Factor 4 (lines 273-292): Kelly utilization, weight 0.15. -/
def kellyFactor (trades : List Trade) : Option Factor :=
  let ratios := trades.filterMap kellyRatio
  if ratios = [] then none
  else
    some { name := "Kelly 利用率",
           score := min 100 (max 0
             (ratios.sum / (ratios.length : ℚ) / (3/2) * 100)),
           weight := 3/20 }

/-- Factor 5 (lines 295-302): trade frequency, weight 0.10. -/
def freqFactor (trades : List Trade) : Factor :=
  { name := "交易频率",
    score := min 100 (max 0 ((trades.length : ℚ) / 20 * 100)),
    weight := 1/10 }

/-- The factor list in source append order (factors 2-4 only when their
data exists). -/
def riskFactors (trades : List Trade) : List Factor :=
  [posFactor trades] ++ (rrFactor trades).toList ++ (wrFactor trades).toList
    ++ (kellyFactor trades).toList ++ [freqFactor trades]

/-- Label thresholds (lines 309-318). -/
def risk_label (s : ℚ) : String :=
  if 75 ≤ s then "激进型 🔥"
  else if 55 ≤ s then "偏激进 ⚡"
  else if 45 ≤ s then "均衡型 ⚖️"
  else if 25 ≤ s then "偏保守 🛡️"
  else "保守型 🏦"

/-- The insufficient-data label of the empty branch (line 227): 数据不足
means "insufficient data". -/
def sNoData : String := "数据不足"

/-- `total_weight` of line 305. -/
def riskTotalWeight (trades : List Trade) : ℚ :=
  ((riskFactors trades).map Factor.weight).sum

/-- `weighted_score` of line 306: the weighted average renormalized by the
sum of the included weights, 50 on a zero total weight. -/
def riskWeightedScore (trades : List Trade) : ℚ :=
  if riskTotalWeight trades ≠ 0 then
    ((riskFactors trades).map (fun f => f.score * f.weight)).sum /
      riskTotalWeight trades
  else 50

/-- src/analytics_engine.py lines 222-320: risk-appetite scoring. -/
def calc_risk_profile (trades : List Trade) : RiskProfile :=
  if trades = [] then { score := 50, label := sNoData, factors := [] }
  else
    { score := riskWeightedScore trades,
      label := risk_label (riskWeightedScore trades),
      factors := riskFactors trades }

-- ── Claims C4 and C5 ─────────────────────────────────────────────

/-- A `min 100 (max 0 ·)` clamp lands in [0, 100]. -/
theorem clamp_bounds (x : ℚ) :
    0 ≤ min 100 (max 0 x) ∧ min 100 (max 0 x) ≤ 100 :=
  ⟨le_min (by norm_num) (le_max_left 0 x), min_le_left _ _⟩

/-- Every factor calc_risk_profile produces has a clamped score and a
positive weight. -/
theorem riskFactors_mem_bounds (trades : List Trade) :
    ∀ f ∈ riskFactors trades, (0 ≤ f.score ∧ f.score ≤ 100) ∧ 0 < f.weight := by
  intro f hf
  simp only [riskFactors, List.mem_append, List.mem_singleton,
    Option.mem_toList, Option.mem_def] at hf
  rcases hf with (((hf | hf) | hf) | hf) | hf
  · subst hf
    exact ⟨clamp_bounds _, by norm_num [posFactor]⟩
  · simp only [rrFactor] at hf
    split at hf
    · exact absurd hf (by simp)
    · rw [Option.some_inj] at hf
      subst hf
      exact ⟨clamp_bounds _, by norm_num⟩
  · simp only [wrFactor] at hf
    split at hf
    · exact absurd hf (by simp)
    · rw [Option.some_inj] at hf
      subst hf
      exact ⟨clamp_bounds _, by norm_num⟩
  · simp only [kellyFactor] at hf
    split at hf
    · exact absurd hf (by simp)
    · rw [Option.some_inj] at hf
      subst hf
      exact ⟨clamp_bounds _, by norm_num⟩
  · subst hf
    exact ⟨clamp_bounds _, by norm_num [freqFactor]⟩

/-- The renormalized weighted average of clamped scores with positive
weights is in [0, 100], and the total weight is positive. -/
theorem weighted_avg_bounds (fs : List Factor) (hne : fs ≠ [])
    (hb : ∀ f ∈ fs, (0 ≤ f.score ∧ f.score ≤ 100) ∧ 0 < f.weight) :
    0 < (fs.map Factor.weight).sum ∧
    0 ≤ (fs.map (fun f => f.score * f.weight)).sum /
      (fs.map Factor.weight).sum ∧
    (fs.map (fun f => f.score * f.weight)).sum /
      (fs.map Factor.weight).sum ≤ 100 := by
  have hW : 0 < (fs.map Factor.weight).sum := by
    cases fs with
    | nil => exact absurd rfl hne
    | cons g gs =>
      simp only [List.map_cons, List.sum_cons]
      have h1 : 0 < g.weight := (hb g (by simp)).2
      have h2 : 0 ≤ (gs.map Factor.weight).sum :=
        List.sum_nonneg (fun x hx => by
          obtain ⟨f, hf, rfl⟩ := List.mem_map.mp hx
          exact le_of_lt (hb f (by simp [hf])).2)
      linarith
  have hA0 : 0 ≤ (fs.map (fun f => f.score * f.weight)).sum :=
    List.sum_nonneg (fun x hx => by
      obtain ⟨f, hf, rfl⟩ := List.mem_map.mp hx
      exact mul_nonneg (hb f hf).1.1 (le_of_lt (hb f hf).2))
  have hA100 : (fs.map (fun f => f.score * f.weight)).sum ≤
      100 * (fs.map Factor.weight).sum := by
    rw [← List.sum_map_mul_left]
    exact List.sum_le_sum (fun f hf =>
      mul_le_mul_of_nonneg_right (hb f hf).1.2 (le_of_lt (hb f hf).2))
  refine ⟨hW, div_nonneg hA0 (le_of_lt hW), ?_⟩
  rw [div_le_iff₀ hW]
  linarith

/-- Claim C4: every factor score and the final score of calc_risk_profile
lie in [0, 100] for every trade list, and the empty list yields score 50,
the insufficient-data label and no factors. -/
theorem C4_risk_profile_bounds :
    (calc_risk_profile [] =
      { score := 50, label := sNoData, factors := [] }) ∧
    ∀ trades : List Trade,
      (∀ f ∈ (calc_risk_profile trades).factors,
        0 ≤ f.score ∧ f.score ≤ 100) ∧
      0 ≤ (calc_risk_profile trades).score ∧
      (calc_risk_profile trades).score ≤ 100 := by
  refine ⟨rfl, fun trades => ?_⟩
  by_cases h : trades = []
  · subst h
    refine ⟨fun f hf => ?_, by norm_num [calc_risk_profile],
      by norm_num [calc_risk_profile]⟩
    simp [calc_risk_profile] at hf
  · have hfac : (calc_risk_profile trades).factors = riskFactors trades := by
      rw [calc_risk_profile, if_neg h]
    have hne : riskFactors trades ≠ [] := by simp [riskFactors]
    obtain ⟨hW, h0, h100⟩ :=
      weighted_avg_bounds _ hne (riskFactors_mem_bounds trades)
    have hws : (calc_risk_profile trades).score =
        ((riskFactors trades).map (fun f => f.score * f.weight)).sum /
          ((riskFactors trades).map Factor.weight).sum := by
      rw [calc_risk_profile, if_neg h]
      show riskWeightedScore trades = _
      rw [riskWeightedScore, riskTotalWeight, if_pos (ne_of_gt hW)]
    refine ⟨fun f hf => (riskFactors_mem_bounds trades f (hfac ▸ hf)).1,
      ?_, ?_⟩
    · rw [hws]
      exact h0
    · rw [hws]
      exact h100

/-- An extreme single-trade input: full position, no planning estimates. -/
def tExtreme : Trade := { status := sCLOSED, position_pct := 100 }

/-- Witness for C4: factor-membership hypothesis discharged at a concrete
extreme input. -/
theorem C4_witness :
    (0 ≤ (posFactor [tExtreme]).score ∧ (posFactor [tExtreme]).score ≤ 100) ∧
    0 ≤ (calc_risk_profile [tExtreme]).score ∧
    (calc_risk_profile [tExtreme]).score ≤ 100 := by
  have hmem : posFactor [tExtreme] ∈ (calc_risk_profile [tExtreme]).factors := by
    simp [calc_risk_profile, riskFactors]
  exact ⟨(C4_risk_profile_bounds.2 [tExtreme]).1 (posFactor [tExtreme]) hmem,
    (C4_risk_profile_bounds.2 [tExtreme]).2⟩

/-- Claim C5: for every non-empty trade list the final score is the sum of
(score × weight) over exactly the produced factors, divided by the sum of
their weights; and with no risk_reward or win_rate data only factors 1
(weight 0.30) and 5 (weight 0.10) are scored, so the final score is
(posScore·0.30 + freqScore·0.10)/0.40. -/
theorem C5_weight_renormalization :
    ∀ trades : List Trade, trades ≠ [] →
      ((calc_risk_profile trades).factors = riskFactors trades ∧
       (calc_risk_profile trades).score =
         ((riskFactors trades).map (fun f => f.score * f.weight)).sum /
           ((riskFactors trades).map Factor.weight).sum) ∧
      ((∀ t ∈ trades, t.risk_reward = none ∧ t.win_rate = none) →
        riskFactors trades = [posFactor trades, freqFactor trades] ∧
        (posFactor trades).weight = 3/10 ∧
        (freqFactor trades).weight = 1/10 ∧
        (calc_risk_profile trades).score =
          ((posFactor trades).score * (3/10) +
            (freqFactor trades).score * (1/10)) / (4/10)) := by
  intro trades h
  have hne : riskFactors trades ≠ [] := by simp [riskFactors]
  obtain ⟨hW, _, _⟩ := weighted_avg_bounds _ hne (riskFactors_mem_bounds trades)
  have hfac : (calc_risk_profile trades).factors = riskFactors trades := by
    rw [calc_risk_profile, if_neg h]
  have hws : (calc_risk_profile trades).score =
      ((riskFactors trades).map (fun f => f.score * f.weight)).sum /
        ((riskFactors trades).map Factor.weight).sum := by
    rw [calc_risk_profile, if_neg h]
    show riskWeightedScore trades = _
    rw [riskWeightedScore, riskTotalWeight, if_pos (ne_of_gt hW)]
  refine ⟨⟨hfac, hws⟩, fun hnone => ?_⟩
  have hrr : rrValues trades = [] := by
    rw [rrValues, List.filterMap_eq_nil_iff]
    intro t ht
    simp [(hnone t ht).1]
  have hwr : wrValues trades = [] := by
    rw [wrValues, List.filterMap_eq_nil_iff]
    intro t ht
    simp [(hnone t ht).2]
  have hke : trades.filterMap kellyRatio = [] := by
    rw [List.filterMap_eq_nil_iff]
    intro t ht
    simp [kellyRatio, (hnone t ht).2]
  have hfachm : riskFactors trades = [posFactor trades, freqFactor trades] := by
    simp [riskFactors, rrFactor, wrFactor, kellyFactor, hrr, hwr, hke]
  refine ⟨hfachm, rfl, rfl, ?_⟩
  rw [hws, hfachm]
  simp only [List.map_cons, List.map_nil, List.sum_cons, List.sum_nil]
  norm_num [posFactor, freqFactor]

/-- Witness for C5: hypotheses discharged at the concrete extreme input. -/
theorem C5_witness :
    ([tExtreme] ≠ ([] : List Trade)) ∧
    (∀ t ∈ [tExtreme], t.risk_reward = none ∧ t.win_rate = none) ∧
    riskFactors [tExtreme] = [posFactor [tExtreme], freqFactor [tExtreme]] ∧
    (calc_risk_profile [tExtreme]).score =
      ((posFactor [tExtreme]).score * (3/10) +
        (freqFactor [tExtreme]).score * (1/10)) / (4/10) := by
  have h1 : [tExtreme] ≠ ([] : List Trade) := by simp
  have h2 : ∀ t ∈ [tExtreme], t.risk_reward = none ∧ t.win_rate = none := by
    intro t ht
    rw [List.mem_singleton] at ht
    subst ht
    exact ⟨rfl, rfl⟩
  obtain ⟨hf, _, _, hs⟩ := (C5_weight_renormalization [tExtreme] h1).2 h2
  exact ⟨h1, h2, hf, hs⟩
